import Mathlib

/-!
# Verification of the ollama-agent reverse proxy

Shallow embedding of the request-forwarding core of `src/main.rs` and the
keychain module `src/keychain.rs`, together with theorems settling the
frozen claims about the program.

Modelling conventions:
* Header names are modelled as Lean `String`s.  In the source, header names
  are typed `hyper::header::HeaderName` values, whose invariant is that the
  name is stored lowercase; theorems about header sets therefore carry a
  well-formedness hypothesis that the names are lowercase (and, matching the
  `HeaderMap` representation, that each name occurs in exactly one group).
* An inbound `HeaderMap` is a list of groups `(name, values)`: the map is a
  multimap, iteration yields, for every group, its first value paired with
  `some name` and every further value paired with `none` — exactly the
  `(Option<HeaderName>, HeaderValue)` pairs produced by `HeaderMap`'s
  by-value iterator that the loop in `proxy_handler` consumes.
* `HeaderMap::insert` on the outbound map is modelled by `headerInsert`:
  it replaces the value of an existing entry with the same name (removing
  any further entries under that name) or appends a fresh entry.
* Body streams are opaque `String`s: the proxy never inspects them.
-/

namespace OllamaAgent

/-- A byte of an HTTP header value is legal iff it is horizontal tab or a
byte ≥ 0x20 other than DEL (0x7F); this is the validity check performed by
`HeaderValue::from_str`, which `format!("Bearer {}", api_key).parse()` in
`proxy_handler` runs on the formatted credential.  Characters ≥ 0x80 encode
to bytes ≥ 0x80, all legal, so the check is per character. -/
def isValidHeaderValueChar (c : Char) : Bool :=
  c.toNat = 9 || (32 ≤ c.toNat && c.toNat ≠ 127)

/-- Validity of a whole header value string (all characters legal). -/
def isValidHeaderValue (s : String) : Bool :=
  s.toList.all isValidHeaderValueChar

/-- `HeaderMap::insert` on a list model: replace the first entry carrying
the name (dropping any further entries under that name, as `insert` removes
all previous values), or append a fresh entry at the end. -/
def headerInsert (n v : String) : List (String × String) → List (String × String)
  | [] => [(n, v)]
  | p :: rest =>
      if p.1 = n then (n, v) :: rest.filter (fun q => q.1 ≠ n)
      else p :: headerInsert n v rest

/-- The `(Option name, value)` pairs yielded by consuming a `HeaderMap`:
for each group the first value carries the name, subsequent values of the
same name carry `none`. -/
def headerMapEntries : List (String × List String) → List (Option String × String)
  | [] => []
  | p :: rest =>
      (match p.2 with
       | [] => []
       | v :: vs => (some p.1, v) :: vs.map (fun w => ((none : Option String), w)))
      ++ headerMapEntries rest

/-- One iteration of the header-copy loop of `proxy_handler`
(src/main.rs lines 87–94): entries without a name are skipped, the `host`
header is skipped, everything else is `insert`ed into the outbound map. -/
def forwardStep (acc : List (String × String)) (e : Option String × String) :
    List (String × String) :=
  match e.1 with
  | none => acc
  | some n => if n = "host" then acc else headerInsert n e.2 acc

/-- The header policy of `proxy_handler` (src/main.rs lines 86–109): copy
the inbound headers skipping `host` (and, by the iterator's contract, all
but the first value of each name), then, if a credential is configured and
`Bearer <credential>` parses as a header value, `insert` it under
`authorization`; if it does not parse, continue without the header. -/
def build_outbound_headers (api_key : Option String)
    (inbound : List (String × List String)) : List (String × String) :=
  let hs := (headerMapEntries inbound).foldl forwardStep []
  match api_key with
  | none => hs
  | some k =>
      if isValidHeaderValue ("Bearer " ++ k) then
        headerInsert "authorization" ("Bearer " ++ k) hs
      else hs

/-- The first value of each non-`host` group, in group order: the header
set the copy loop actually produces (values after the first are dropped by
the `if let Some(name)` guard). -/
def firstValuesSansHost (inbound : List (String × List String)) :
    List (String × String) :=
  (inbound.filter (fun p => p.1 ≠ "host")).filterMap
    (fun p => p.2.head?.map (fun v => (p.1, v)))

/-- Names of a grouped header map. -/
def headerNames (inbound : List (String × List String)) : List String :=
  inbound.map Prod.fst

/-- A name is stored lowercase: it carries no ASCII uppercase letter
(the `HeaderName` type of the source normalizes names to lowercase). -/
def isLowerName (s : String) : Bool :=
  s.toList.all (fun c => !(65 ≤ c.toNat && c.toNat ≤ 90))

/-- Well-formedness of an inbound header map as `hyper` guarantees it:
every name occurs in one group only and is stored lowercase. -/
def HeadersWF (inbound : List (String × List String)) : Prop :=
  (headerNames inbound).Nodup ∧
    ∀ p ∈ inbound, isLowerName p.1 = true

/-- The URL rewriter of `proxy_handler` (src/main.rs lines 67–75):
`format!("{}{}", args.remote_url, path_and_query)` where the path and query
default to `/` when the inbound URI has none. -/
def rewrite (remoteBase : String) (pathAndQuery : Option String) : String :=
  remoteBase ++ pathAndQuery.getD "/"

/-! ## The request forwarder -/

/-- Auxiliary substring search over character lists. -/
def strContainsAux (pat : List Char) : List Char → Bool
  | [] => pat.isEmpty
  | c :: rest => pat.isPrefixOf (c :: rest) || strContainsAux pat rest

/-- Rust `str::contains` with a literal pattern: some suffix of `s` starts
with `pat`. -/
def strContains (s pat : String) : Bool :=
  strContainsAux pat.toList s.toList

/-- An inbound URI, reduced to its optional path+query
(`Uri::path_and_query`); the path component is the part before `?`. -/
structure Uri where
  pathAndQuery : Option String

/-- `Uri::path`: the path component of the URI. -/
def Uri.path (u : Uri) : String :=
  String.mk ((u.pathAndQuery.getD "/").toList.takeWhile (fun c => c ≠ '?'))

/-- `is_streaming_request` (src/main.rs lines 53–58): the path contains
one of the two Ollama streaming endpoint substrings. -/
def is_streaming_request (uri : Uri) : Bool :=
  strContains (Uri.path uri) "/api/chat" || strContains (Uri.path uri) "/api/generate"

/-- An inbound request as `proxy_handler` consumes it. -/
structure ProxyRequest where
  method : String
  uri : Uri
  headers : List (String × List String)
  body : String

/-- An HTTP response: status, headers, body stream (opaque). -/
structure HttpResponse where
  status : Nat
  headers : List (String × String)
  body : String
deriving DecidableEq

/-- The outbound request dispatched to the upstream. -/
structure OutboundRequest where
  method : String
  url : String
  headers : List (String × String)
  body : String

/-- The per-request timeout in seconds (src/main.rs line 133). -/
def timeout_secs : Nat := 300

/-- Outcome of racing the upstream call against the timeout. -/
inductive RaceResult where
  | ok (resp : HttpResponse)
  | transportErr (e : String)
  | elapsed
deriving DecidableEq

/-- `tokio::time::timeout(d, client.request(r))`: the upstream behaviour
is an oracle giving `none` (the call never completes) or `some (t, r)`
(the call completes after `t` seconds with a response or a transport
error); the result is delivered iff it arrives within the bound. -/
def race (bound : Nat) (completion : Option (Nat × Except String HttpResponse)) :
    RaceResult :=
  match completion with
  | none => .elapsed
  | some (t, r) =>
      if t < bound then
        match r with
        | .ok resp => .ok resp
        | .error e => .transportErr e
      else .elapsed

/-- `proxy_handler` (src/main.rs lines 60–175): rewrite the URL, build the
outbound headers, assemble the outbound request and dispatch it through
the client oracle `up` under the 300-second timeout.
`Request::builder().method(..).uri(remote_url)` stores a URI parse
failure inside the builder (`uri_ok` abstracts `http::Uri` validity of
the rewritten URL; the method is already a typed `Method` and cannot
fail), so when the URL is invalid `builder.headers_mut()` at line 109
returns `None` and `.unwrap()` PANICS the handling task — modelled as
`none`.  With a valid URL the builder holds no error, so
`builder.body(body)` at line 121 always returns `Ok`, and its `Err` arm
(lines 123–128, the only code producing a 500) is unreachable and absent
from the model.  The dispatch outcome is then classified: transport
failure 502, timeout 504, success returns the upstream response verbatim.
`classify` abstracts the streaming classification — the source
instantiates it with `is_streaming_request` — and feeds only the log
lines, returned as the second component. -/
def proxy_handler (classify : Uri → Bool) (api_key : Option String)
    (remote_url : String) (uri_ok : String → Bool)
    (up : OutboundRequest → Option (Nat × Except String HttpResponse))
    (req : ProxyRequest) : Option (HttpResponse × List String) :=
  let pq := req.uri.pathAndQuery.getD "/"
  let is_stream := classify req.uri
  let url := remote_url ++ pq
  let headers := build_outbound_headers api_key req.headers
  let log1 := "Proxying request: " ++ req.method ++ " -> " ++ url ++
      (if is_stream then " [STREAMING]" else "")
  if uri_ok url then
    match race timeout_secs (up ⟨req.method, url, headers, req.body⟩) with
    | .ok resp =>
        let ct := ((resp.headers.find? (fun p => p.1 = "content-type")).map Prod.snd).getD ""
        let log2 := "Received response: " ++ toString resp.status
        let logs :=
          if strContains ct "stream" || strContains ct "event-stream" then
            [log1, log2, "Detected streaming response, preserving chunked encoding"]
          else [log1, log2]
        some (resp, logs)
    | .transportErr e =>
        some (⟨502, [], "Bad Gateway"⟩, [log1, "Proxy request failed: " ++ e])
    | .elapsed =>
        some (⟨504, [], "Gateway Timeout"⟩, [log1, "Proxy request timed out"])
  else none

/-! ## Startup validation and shutdown (main) -/

/-- Rust `str::starts_with` for a literal pattern. -/
def starts_with (s pat : String) : Bool :=
  pat.toList.isPrefixOf s.toList

/-- Outcome of process startup. -/
inductive StartupResult where
  | fatal (msg : String)
  | serving (addr : String)
deriving DecidableEq

/-- The startup sequence of `main` (src/main.rs lines 300–334): validate
the remote URL scheme, then parse the local address (`parse_addr`
abstracts `SocketAddr` parsing) and bind; the scheme validation runs
before the server binds or serves any traffic. -/
def main_startup (local_addr remote_url : String)
    (parse_addr : String → Option String) : StartupResult :=
  if starts_with remote_url "http://" || starts_with remote_url "https://" then
    match parse_addr local_addr with
    | some addr => .serving addr
    | none => .fatal "Failed to parse local address"
  else .fatal "Remote URL must start with http:// or https://"

/-- The three events that can complete the `tokio::select!` of `main`
(src/main.rs lines 350–360): the server future finishing, the ctrl-c
signal branch, or the oneshot receiver branch. -/
inductive MainEvent where
  | serverDone
  | ctrlC
  | rxFired

/-- Modelled from the select in `main` (src/main.rs lines 350–360):
`Server::serve` is used WITHOUT `with_graceful_shutdown`, so when a signal
branch completes first the `select!` returns and the server future is
dropped, cancelling every in-flight connection and request task instead of
awaiting it.  Given the number of in-flight requests and the event that
completes the select, this gives how many of those requests run to
completion before the process exits. -/
def completed_before_exit (inflight : Nat) (e : MainEvent) : Nat :=
  match e with
  | .serverDone => inflight
  | .ctrlC => 0
  | .rxFired => 0

/-! ## The keychain module (src/keychain.rs) -/

/-- Repeatedly strip a leading occurrence of the pattern
(Rust `str::trim_start_matches`); fuel-driven on the character list, the
initial fuel being the list length (each step removes at least one
character). -/
def stripAllAux (pat : List Char) : Nat → List Char → List Char
  | 0, s => s
  | n + 1, s =>
      if !pat.isEmpty && pat.isPrefixOf s then stripAllAux pat n (s.drop pat.length)
      else s

/-- Rust `str::trim_start_matches(pat)`: all leading matches of `pat`
removed. -/
def trim_start_matches_all (s pat : String) : String :=
  String.mk (stripAllAux pat.toList s.toList.length s.toList)

/-- Rust `str::trim_end_matches('/')`: all trailing slashes removed. -/
def trim_end_slashes (s : String) : String :=
  String.mk ((s.toList.reverse.dropWhile (fun c => c = '/')).reverse)

/-- `create_account_name` (src/keychain.rs lines 28–44): strip the scheme
and trailing slashes for a cleaner account name; a cleaned URL longer than
50 bytes is hashed (`DefaultHasher::finish`, abstracted as the parameter
`hash` — its exact 64-bit value is irrelevant to the claims) into a
decimal suffix. -/
def create_account_name (hash : String → Nat) (remote_url : String) : String :=
  let clean := trim_end_slashes
    (trim_start_matches_all (trim_start_matches_all remote_url "http://") "https://")
  if 50 < clean.utf8ByteSize then "api-key-" ++ toString (hash clean)
  else "api-key-" ++ clean

/-- The macOS keychain, modelled as a list of
`((service, account), password)` items. -/
abbrev Keychain := List ((String × String) × String)

/-- `security_framework::passwords::get_generic_password`: the stored
password, or an error when the item is absent. -/
def get_generic_password (service account : String) (st : Keychain) :
    Except String String :=
  match st.find? (fun e => e.1 = (service, account)) with
  | some e => .ok e.2
  | none => .error "The specified item could not be found in the keychain."

/-- `security_framework::passwords::delete_generic_password`: remove the
item, error when absent. -/
def delete_generic_password (service account : String) (st : Keychain) :
    Except String Keychain :=
  if st.any (fun e => e.1 = (service, account)) then
    .ok (st.filter (fun e => e.1 ≠ (service, account)))
  else .error "The specified item could not be found in the keychain."

/-- `security_framework::passwords::set_generic_password`: create the item
or update an existing one. -/
def set_generic_password (service account password : String) (st : Keychain) :
    Keychain :=
  if st.any (fun e => e.1 = (service, account)) then
    st.map (fun e => if e.1 = (service, account) then (e.1, password) else e)
  else st ++ [((service, account), password)]

/-- The keychain service name (src/keychain.rs line 20). -/
def SERVICE_NAME : String := "ollama-agent"

/-- `save_api_key` (src/keychain.rs lines 47–72): reject an empty key
before touching the keychain; otherwise best-effort delete of any existing
password for the account, then set the new one.  Returns the operation
result paired with the resulting keychain. -/
def save_api_key (hash : String → Nat) (api_key remote_url : String)
    (st : Keychain) : Except String Unit × Keychain :=
  if api_key = "" then (.error "Cannot save empty API key to keychain", st)
  else
    let account := create_account_name hash remote_url
    let st1 := match delete_generic_password SERVICE_NAME account st with
      | .ok s => s
      | .error _ => st
    (.ok (), set_generic_password SERVICE_NAME account api_key st1)

/-- `get_api_key` (src/keychain.rs lines 76–94). -/
def get_api_key (hash : String → Nat) (remote_url : String) (st : Keychain) :
    Except String String :=
  get_generic_password SERVICE_NAME (create_account_name hash remote_url) st

/-- `delete_api_key` (src/keychain.rs lines 98–109). -/
def delete_api_key (hash : String → Nat) (remote_url : String) (st : Keychain) :
    Except String Keychain :=
  delete_generic_password SERVICE_NAME (create_account_name hash remote_url) st

/-- The fixed probe list of `list_saved_urls` (src/keychain.rs
lines 124–128). -/
def urls_to_check : List String :=
  ["api.ollama.ai", "localhost:11434", "127.0.0.1:11434"]

/-- `list_saved_urls` (src/keychain.rs lines 116–146): probe the fixed URL
list and keep those whose account has a stored password.  (The source
collects the hits into a `HashSet` with unspecified iteration order; the
model keeps probe order.) -/
def list_saved_urls (hash : String → Nat) (st : Keychain) : List String :=
  urls_to_check.filter (fun u =>
    match get_generic_password SERVICE_NAME (create_account_name hash u) st with
    | .ok _ => true
    | .error _ => false)

/-! ## Helper lemmas about the header model -/

lemma filter_filter_ne (n : String) (l : List (String × String)) :
    (l.filter (fun q => q.1 ≠ n)).filter (fun q => q.1 = n) = [] := by
  induction l with
  | nil => rfl
  | cons q t ih => by_cases hq : q.1 = n <;> simp [List.filter_cons, hq, ih]

lemma filter_ne_idem (n : String) (l : List (String × String)) :
    (l.filter (fun q => q.1 ≠ n)).filter (fun q => q.1 ≠ n) = l.filter (fun q => q.1 ≠ n) := by
  induction l with
  | nil => rfl
  | cons q t ih => by_cases hq : q.1 = n <;> simp [List.filter_cons, hq, ih]

lemma filter_headerInsert_self (n v : String) (hs : List (String × String)) :
    (headerInsert n v hs).filter (fun p => p.1 = n) = [(n, v)] := by
  induction hs with
  | nil => simp [headerInsert]
  | cons p rest ih =>
    by_cases h : p.1 = n
    · simp [headerInsert, h, List.filter_cons, filter_filter_ne]
    · simp [headerInsert, h, List.filter_cons, ih]

lemma filter_ne_headerInsert (n v : String) (hs : List (String × String)) :
    (headerInsert n v hs).filter (fun p => p.1 ≠ n) = hs.filter (fun p => p.1 ≠ n) := by
  induction hs with
  | nil => simp [headerInsert]
  | cons p rest ih =>
    by_cases h : p.1 = n
    · simp [headerInsert, h, List.filter_cons, filter_ne_idem]
    · simp only [headerInsert, if_neg h, List.filter_cons]
      simp [h]
      simpa using ih

lemma mem_headerInsert {p : String × String} (n v : String)
    (hs : List (String × String)) (hp : p ∈ headerInsert n v hs) :
    p = (n, v) ∨ p ∈ hs := by
  induction hs with
  | nil => simpa [headerInsert] using hp
  | cons q rest ih =>
    simp only [headerInsert] at hp
    by_cases h : q.1 = n
    · rw [if_pos h] at hp
      rcases List.mem_cons.mp hp with rfl | h2
      · exact Or.inl rfl
      · exact Or.inr (List.mem_cons_of_mem _ (List.mem_of_mem_filter h2))
    · rw [if_neg h] at hp
      rcases List.mem_cons.mp hp with rfl | h2
      · exact Or.inr (List.mem_cons_self _ _)
      · rcases ih h2 with h3 | h4
        · exact Or.inl h3
        · exact Or.inr (List.mem_cons_of_mem _ h4)

lemma headerInsert_of_not_mem (n v : String) (hs : List (String × String))
    (h : ∀ p ∈ hs, p.1 ≠ n) :
    headerInsert n v hs = hs ++ [(n, v)] := by
  induction hs with
  | nil => rfl
  | cons q rest ih =>
    have hq : q.1 ≠ n := h q (List.mem_cons_self _ _)
    simp only [headerInsert, if_neg hq]
    rw [ih (fun p hp => h p (List.mem_cons_of_mem _ hp))]
    simp

lemma foldl_forwardStep_none (ws : List String) (acc : List (String × String)) :
    (ws.map (fun w => ((none : Option String), w))).foldl forwardStep acc = acc := by
  induction ws generalizing acc with
  | nil => rfl
  | cons w t ih => simpa [forwardStep] using ih acc

/-- The header-copy loop, run from any accumulator whose names are disjoint
from the remaining inbound names, appends exactly the first value of every
non-`host` group, in group order. -/
lemma foldl_forwardStep_eq (inbound : List (String × List String)) :
    ∀ acc : List (String × String),
      (headerNames inbound).Nodup →
      (∀ p ∈ acc, ∀ q ∈ inbound, p.1 ≠ q.1) →
      (headerMapEntries inbound).foldl forwardStep acc
        = acc ++ firstValuesSansHost inbound := by
  induction inbound with
  | nil =>
    intro acc _ _
    simp [headerMapEntries, firstValuesSansHost]
  | cons g rest ih =>
    intro acc hnd hdisj
    obtain ⟨n, vs⟩ := g
    have hn2 : n ∉ headerNames rest ∧ (headerNames rest).Nodup := by
      simpa [headerNames, List.nodup_cons] using hnd
    have hdisj' : ∀ p ∈ acc, ∀ q ∈ rest, p.1 ≠ q.1 :=
      fun p hp q hq => hdisj p hp q (List.mem_cons_of_mem _ hq)
    cases vs with
    | nil =>
      have hrw : firstValuesSansHost ((n, ([] : List String)) :: rest)
          = firstValuesSansHost rest := by
        by_cases hn : n = "host" <;>
          simp [firstValuesSansHost, List.filter_cons, hn, List.filterMap_cons]
      simpa [headerMapEntries, hrw] using ih acc hn2.2 hdisj'
    | cons v ws =>
      have hacc : ∀ p ∈ acc, p.1 ≠ n :=
        fun p hp => hdisj p hp (n, v :: ws) (List.mem_cons_self _ _)
      by_cases hn : n = "host"
      · have hrw : firstValuesSansHost ((n, v :: ws) :: rest)
            = firstValuesSansHost rest := by
          simp [firstValuesSansHost, List.filter_cons, hn]
        rw [headerMapEntries]
        simp only [List.foldl_append]
        rw [List.foldl_cons]
        have hstep : forwardStep acc (some n, v) = acc := by
          simp [forwardStep, hn]
        rw [hstep, foldl_forwardStep_none, hrw]
        exact ih acc hn2.2 hdisj'
      · have hrw : firstValuesSansHost ((n, v :: ws) :: rest)
            = (n, v) :: firstValuesSansHost rest := by
          simp [firstValuesSansHost, List.filter_cons, hn, List.filterMap_cons]
        rw [headerMapEntries]
        simp only [List.foldl_append]
        rw [List.foldl_cons]
        have hstep : forwardStep acc (some n, v) = acc ++ [(n, v)] := by
          simp only [forwardStep, if_neg hn]
          exact headerInsert_of_not_mem n v acc hacc
        rw [hstep, foldl_forwardStep_none]
        have hdisj2 : ∀ p ∈ acc ++ [(n, v)], ∀ q ∈ rest, p.1 ≠ q.1 := by
          intro p hp q hq
          rcases List.mem_append.mp hp with hp1 | hp2
          · exact hdisj' p hp1 q hq
          · have hpv : p = (n, v) := by simpa using hp2
            subst hpv
            intro hcontra
            have hq1 : q.1 ∈ headerNames rest := List.mem_map_of_mem Prod.fst hq
            have hnq : n = q.1 := hcontra
            exact hn2.1 (hnq ▸ hq1)
        rw [ih (acc ++ [(n, v)]) hn2.2 hdisj2, hrw]
        simp

lemma build_none_eq (inbound : List (String × List String))
    (hnd : (headerNames inbound).Nodup) :
    build_outbound_headers none inbound = firstValuesSansHost inbound := by
  have h := foldl_forwardStep_eq inbound [] hnd
    (fun p hp => absurd hp (List.not_mem_nil p))
  simpa [build_outbound_headers] using h

lemma build_some_valid (k : String) (inbound : List (String × List String))
    (hv : isValidHeaderValue ("Bearer " ++ k) = true) :
    build_outbound_headers (some k) inbound
      = headerInsert "authorization" ("Bearer " ++ k)
          (build_outbound_headers none inbound) := by
  simp [build_outbound_headers, hv]

lemma build_some_invalid (k : String) (inbound : List (String × List String))
    (hv : isValidHeaderValue ("Bearer " ++ k) = false) :
    build_outbound_headers (some k) inbound = build_outbound_headers none inbound := by
  simp [build_outbound_headers, hv]

lemma mem_firstValuesSansHost_ne_host (inbound : List (String × List String))
    (p : String × String) (hp : p ∈ firstValuesSansHost inbound) : p.1 ≠ "host" := by
  unfold firstValuesSansHost at hp
  rcases List.mem_filterMap.mp hp with ⟨q, hq, hmap⟩
  rcases Option.map_eq_some'.mp hmap with ⟨v, _, hpv⟩
  have hqf := List.mem_filter.mp hq
  have : p.1 = q.1 := by rw [← hpv]
  rw [this]
  simpa using hqf.2

/-! ## Claim theorems: header policy and URL rewriter -/

/-- Claim C1, counterexample to the original statement: with the configured
credential `"\n"`, `format!("Bearer {}", api_key).parse()` fails (newline is
not a legal header-value byte), `proxy_handler` continues without the
header, and the outbound header set of a request with no inbound headers
carries no authorization header at all — not exactly one. -/
theorem auth_header_invalid_credential_counterexample :
    build_outbound_headers (some "\n") [] = []
    ∧ (build_outbound_headers (some "\n") []).countP
        (fun p => p.1 = "authorization") ≠ 1 := by
  constructor <;> decide

/-- Claim C1 (amended): if ProxyConfig carries a credential and
`Bearer <credential>` is a legal header value (every byte is tab or ≥ 0x20
and ≠ 0x7F — the validity check `HeaderValue::from_str` performs), then the
outbound header set contains exactly one authorization header, whose value
is `Bearer <credential>`, regardless of whether the inbound request already
carried one (any client-supplied value is overwritten, never duplicated). -/
theorem auth_header_exactly_one (k : String) (inbound : List (String × List String))
    (_hwf : HeadersWF inbound)
    (hv : isValidHeaderValue ("Bearer " ++ k) = true) :
    (build_outbound_headers (some k) inbound).filter (fun p => p.1 = "authorization")
        = [("authorization", "Bearer " ++ k)]
    ∧ (build_outbound_headers (some k) inbound).countP
        (fun p => p.1 = "authorization") = 1 := by
  have hb := build_some_valid k inbound hv
  constructor
  · rw [hb]
    exact filter_headerInsert_self _ _ _
  · rw [List.countP_eq_length_filter, hb, filter_headerInsert_self]
    rfl

/-- Witness for C1's amended theorem at a concrete input: credential `abc`,
inbound request that already carries an authorization header. -/
theorem auth_header_exactly_one_witness :
    (build_outbound_headers (some "abc")
        [("authorization", ["Bearer old"]), ("x-a", ["1"])]).filter
        (fun p => p.1 = "authorization")
      = [("authorization", "Bearer abc")] :=
  (auth_header_exactly_one "abc" [("authorization", ["Bearer old"]), ("x-a", ["1"])]
    ⟨by decide, by decide⟩ (by decide)).1

/-- Claim C2, counterexample to the original statement: the copy loop in
`proxy_handler` consumes `HeaderMap`'s by-value iterator, whose entries for
the second and later values of a multi-valued header carry no name, so the
`if let Some(name)` guard drops them: of inbound `x: a`, `x: b` only
`x: a` survives. -/
theorem multivalue_drop_counterexample :
    build_outbound_headers none [("x", ["a", "b"])] = [("x", "a")]
    ∧ ("x", "b") ∉ build_outbound_headers none [("x", ["a", "b"])] := by
  constructor <;> decide

/-- Claim C2 (amended): all headers other than `host` pass through to the
outbound set preserving group order, but a multi-valued header keeps only
its FIRST value (values after the first are dropped by the copy loop); when
a credential is configured, the non-authorization part of the outbound set
is unchanged by the credential injection. -/
theorem headers_pass_through_first_value (inbound : List (String × List String))
    (hwf : HeadersWF inbound) :
    build_outbound_headers none inbound = firstValuesSansHost inbound
    ∧ ∀ k : String,
        (build_outbound_headers (some k) inbound).filter
            (fun p => p.1 ≠ "authorization")
          = (firstValuesSansHost inbound).filter (fun p => p.1 ≠ "authorization") := by
  have hb := build_none_eq inbound hwf.1
  refine ⟨hb, ?_⟩
  intro k
  by_cases hv : isValidHeaderValue ("Bearer " ++ k) = true
  · rw [build_some_valid k inbound hv, filter_ne_headerInsert, hb]
  · rw [Bool.not_eq_true] at hv
    rw [build_some_invalid k inbound hv, hb]

/-- Witness for C2's amended theorem at a concrete input. -/
theorem headers_pass_through_first_value_witness :
    build_outbound_headers none [("host", ["h"]), ("x", ["a"])]
        = firstValuesSansHost [("host", ["h"]), ("x", ["a"])]
    ∧ (build_outbound_headers (some "cred") [("host", ["h"]), ("x", ["a"])]).filter
          (fun p => p.1 ≠ "authorization")
        = (firstValuesSansHost [("host", ["h"]), ("x", ["a"])]).filter
            (fun p => p.1 ≠ "authorization") :=
  ⟨(headers_pass_through_first_value _ ⟨by decide, by decide⟩).1,
   (headers_pass_through_first_value _ ⟨by decide, by decide⟩).2 "cred"⟩

/-- Claim C3: for every inbound header set and any credential
configuration, the outbound header set never contains the `host` header
under the client-supplied value: the copy loop skips it, and the only
header the handler adds afterwards is `authorization`. -/
theorem host_header_never_forwarded (api_key : Option String)
    (inbound : List (String × List String)) (hwf : HeadersWF inbound) :
    (build_outbound_headers api_key inbound).all (fun p => p.1 != "host") = true := by
  rw [List.all_eq_true]
  intro p hp
  rw [bne_iff_ne]
  have hfv : ∀ q ∈ firstValuesSansHost inbound, q.1 ≠ "host" :=
    fun q hq => mem_firstValuesSansHost_ne_host inbound q hq
  have hbase := build_none_eq inbound hwf.1
  cases api_key with
  | none =>
    rw [hbase] at hp
    exact hfv p hp
  | some k =>
    by_cases hv : isValidHeaderValue ("Bearer " ++ k) = true
    · rw [build_some_valid k inbound hv] at hp
      rcases mem_headerInsert _ _ _ hp with rfl | hp2
      · simp
      · rw [hbase] at hp2
        exact hfv p hp2
    · rw [Bool.not_eq_true] at hv
      rw [build_some_invalid k inbound hv, hbase] at hp
      exact hfv p hp

/-- Witness for C3 at a concrete input carrying a `host` header. -/
theorem host_header_never_forwarded_witness :
    (build_outbound_headers (some "abc")
        [("host", ["example.com"]), ("x", ["1"])]).all
        (fun p => p.1 != "host") = true :=
  host_header_never_forwarded (some "abc") [("host", ["example.com"]), ("x", ["1"])]
    ⟨by decide, by decide⟩

/-- Claim C5: URL rewriting is pure string concatenation — `rewrite` maps
the base and path+query to their concatenation, path+query defaults to `/`
when absent, and for a fixed base the rewrite is injective on the
path+query string. -/
theorem rewrite_concat_and_injective (base p q : String) (pq : Option String) :
    rewrite base pq = base ++ pq.getD "/"
    ∧ rewrite base none = base ++ "/"
    ∧ (rewrite base (some p) = rewrite base (some q) → p = q) := by
  refine ⟨rfl, rfl, ?_⟩
  intro h
  have h2 : base.data ++ p.data = base.data ++ q.data := congrArg String.data h
  have h3 : p.data = q.data := List.append_cancel_left h2
  cases p
  cases q
  exact congrArg String.mk h3

/-! ## Claim theorems: forwarder outcomes, noninterference, startup, shutdown -/

lemma proxy_handler_map_fst (classify : Uri → Bool) (api_key : Option String)
    (remote_url : String) (uri_ok : String → Bool)
    (up : OutboundRequest → Option (Nat × Except String HttpResponse))
    (req : ProxyRequest) :
    (proxy_handler classify api_key remote_url uri_ok up req).map Prod.fst
      = (if uri_ok (remote_url ++ req.uri.pathAndQuery.getD "/") then
          some (match race timeout_secs (up ⟨req.method,
              remote_url ++ req.uri.pathAndQuery.getD "/",
              build_outbound_headers api_key req.headers, req.body⟩) with
          | .ok resp => resp
          | .transportErr _ => ⟨502, [], "Bad Gateway"⟩
          | .elapsed => ⟨504, [], "Gateway Timeout"⟩)
        else none) := by
  unfold proxy_handler
  cases hb : uri_ok (remote_url ++ req.uri.pathAndQuery.getD "/")
  · simp [hb]
  · simp only [hb, if_true]
    cases race timeout_secs (up ⟨req.method,
        remote_url ++ req.uri.pathAndQuery.getD "/",
        build_outbound_headers api_key req.headers, req.body⟩) <;> simp

/-- Claim C4 (code bug): the 502/504/verbatim mapping holds, but the
"build failure yields 500 without crashing" part is false — when the
rewritten URL is not a valid URI (reachable: a remote URL such as
`http://exa mple.com` passes the scheme check of line 301), the builder
holds the parse error, `builder.headers_mut()` at line 109 is `None` and
`.unwrap()` panics the handling task (`none`), so no 500 is ever
produced and the `Err` arm of `builder.body(body)` at lines 123–128 —
the only 500 path — is unreachable. -/
theorem build_failure_panics_instead_of_500 (api_key : Option String)
    (remote_url : String) (uri_ok : String → Bool)
    (up : OutboundRequest → Option (Nat × Except String HttpResponse))
    (req : ProxyRequest) :
    ((uri_ok (remote_url ++ req.uri.pathAndQuery.getD "/") = false →
        proxy_handler is_streaming_request api_key remote_url uri_ok up req = none)
    ∧ (∀ e, uri_ok (remote_url ++ req.uri.pathAndQuery.getD "/") = true →
        race timeout_secs (up ⟨req.method, remote_url ++ req.uri.pathAndQuery.getD "/",
            build_outbound_headers api_key req.headers, req.body⟩) = .transportErr e →
        (proxy_handler is_streaming_request api_key remote_url uri_ok up req).map Prod.fst
          = some ⟨502, [], "Bad Gateway"⟩)
    ∧ (uri_ok (remote_url ++ req.uri.pathAndQuery.getD "/") = true →
        race timeout_secs (up ⟨req.method, remote_url ++ req.uri.pathAndQuery.getD "/",
            build_outbound_headers api_key req.headers, req.body⟩) = .elapsed →
        (proxy_handler is_streaming_request api_key remote_url uri_ok up req).map Prod.fst
          = some ⟨504, [], "Gateway Timeout"⟩)
    ∧ (∀ resp, uri_ok (remote_url ++ req.uri.pathAndQuery.getD "/") = true →
        race timeout_secs (up ⟨req.method, remote_url ++ req.uri.pathAndQuery.getD "/",
            build_outbound_headers api_key req.headers, req.body⟩) = .ok resp →
        (proxy_handler is_streaming_request api_key remote_url uri_ok up req).map Prod.fst
          = some resp)) := by
  refine ⟨fun hb => ?_, fun e hb hr => ?_, fun hb hr => ?_, fun resp hb hr => ?_⟩
  · unfold proxy_handler
    simp [hb]
  · rw [proxy_handler_map_fst]
    simp [hb, hr]
  · rw [proxy_handler_map_fst]
    simp [hb, hr]
  · rw [proxy_handler_map_fst]
    simp [hb, hr]

/-- Witness for C4's theorem at the failing input: the remote URL
`http://exa mple.com` passes the startup scheme check, yet the rewritten
URL `http://exa mple.com/` is rejected by `http::Uri` (the concrete
`uri_ok` records this), so the handling task panics and no response — in
particular no 500 — is produced; at a valid URL, a never-completing
upstream yields 504. -/
theorem build_failure_panics_instead_of_500_witness :
    starts_with "http://exa mple.com" "http://" = true
    ∧ proxy_handler is_streaming_request none "http://exa mple.com" (fun _ => false)
        (fun _ => none) ⟨"GET", ⟨some "/"⟩, [], ""⟩ = none
    ∧ (proxy_handler is_streaming_request none "https://api.example.com"
        (fun _ => true) (fun _ => none) ⟨"GET", ⟨some "/"⟩, [], ""⟩).map Prod.fst
        = some ⟨504, [], "Gateway Timeout"⟩ :=
  ⟨by decide,
   (build_failure_panics_instead_of_500 none "http://exa mple.com" (fun _ => false)
      (fun _ => none) ⟨"GET", ⟨some "/"⟩, [], ""⟩).1 rfl,
   (build_failure_panics_instead_of_500 none "https://api.example.com" (fun _ => true)
      (fun _ => none) ⟨"GET", ⟨some "/"⟩, [], ""⟩).2.2.1 rfl rfl⟩

/-- Claim C7: streaming classification influences only log output — the
response component returned by the handler (and whether it panics, hence
the outbound request and body relay it embodies) is identical for the
source's classification `is_streaming_request` and any other
classification whatsoever; only the log component can differ. -/
theorem classification_noninterference (c : Uri → Bool) (api_key : Option String)
    (remote_url : String) (uri_ok : String → Bool)
    (up : OutboundRequest → Option (Nat × Except String HttpResponse))
    (req : ProxyRequest) :
    (proxy_handler is_streaming_request api_key remote_url uri_ok up req).map Prod.fst
      = (proxy_handler c api_key remote_url uri_ok up req).map Prod.fst := by
  rw [proxy_handler_map_fst, proxy_handler_map_fst]

/-- Claim C8: a configuration whose remote base URL starts with neither
`http://` nor `https://` fails fatally before the server binds (startup
can only end in the scheme error, never in serving); with a valid scheme
that validation passes and startup proceeds to address parsing and
binding. -/
theorem remote_url_scheme_validated (l u : String) (pa : String → Option String) :
    ((starts_with u "http://" || starts_with u "https://") = false →
        main_startup l u pa = .fatal "Remote URL must start with http:// or https://"
        ∧ ∀ a, main_startup l u pa ≠ .serving a)
    ∧ ((starts_with u "http://" || starts_with u "https://") = true →
        main_startup l u pa
          = match pa l with
            | some a => .serving a
            | none => .fatal "Failed to parse local address") := by
  constructor
  · intro hb
    have h1 : main_startup l u pa
        = .fatal "Remote URL must start with http:// or https://" := by
      simp [main_startup, hb]
    exact ⟨h1, fun a ha => by rw [h1] at ha; exact StartupResult.noConfusion ha⟩
  · intro hb
    simp [main_startup, hb]

/-- Witness for C8: an `ftp://` remote URL is rejected fatally; an
`https://` one passes validation and serves. -/
theorem remote_url_scheme_validated_witness :
    main_startup "127.0.0.1:11434" "ftp://x" (fun s => some s)
        = .fatal "Remote URL must start with http:// or https://"
    ∧ main_startup "127.0.0.1:11434" "https://api.ollama.ai" (fun s => some s)
        = .serving "127.0.0.1:11434" :=
  ⟨((remote_url_scheme_validated "127.0.0.1:11434" "ftp://x" (fun s => some s)).1
      (by decide)).1,
   by
    have h := (remote_url_scheme_validated "127.0.0.1:11434" "https://api.ollama.ai"
      (fun s => some s)).2 (by decide)
    simpa using h⟩

/-- Claim C6 (code bug): with one request in flight, the termination
signal completes the `select!`, the server future is dropped, and zero of
the in-flight requests run to completion — contradicting the claim (and
the source's own "graceful shutdown" comments) that already-dispatched
requests finish before the process exits. -/
theorem shutdown_drops_inflight_requests :
    completed_before_exit 1 MainEvent.ctrlC = 0 ∧ (0 : Nat) ≠ 1 :=
  ⟨rfl, by decide⟩

/-- Witness for C5 at the spec's example: base `https://api.example.com`,
inbound path `/api/tags`. -/
theorem rewrite_concat_and_injective_witness :
    rewrite "https://api.example.com" (some "/api/tags")
        = "https://api.example.com" ++ "/api/tags"
    ∧ ("/api/tags" : String) = "/api/tags" :=
  ⟨(rewrite_concat_and_injective "https://api.example.com" "/api/tags" "/api/tags"
      (some "/api/tags")).1,
   (rewrite_concat_and_injective "https://api.example.com" "/api/tags" "/api/tags"
      none).2.2 rfl⟩

/-! ## Helper lemmas about the keychain model -/

lemma kc_filter_ne_then_eq (k : String × String) (st : Keychain) :
    (st.filter (fun e => e.1 ≠ k)).filter (fun e => e.1 = k) = [] := by
  induction st with
  | nil => rfl
  | cons x t ih => by_cases hx : x.1 = k <;> simp [List.filter_cons, hx, ih]

lemma kc_any_of_filter_ne (k : String × String) (st : Keychain) :
    (st.filter (fun e => e.1 ≠ k)).any (fun e => e.1 = k) = false := by
  induction st with
  | nil => rfl
  | cons x t ih => by_cases hx : x.1 = k <;> simp [List.filter_cons, hx, ih]

lemma kc_filter_ne_of_any_false (k : String × String) (st : Keychain)
    (h : st.any (fun e => e.1 = k) = false) :
    st.filter (fun e => e.1 ≠ k) = st := by
  apply List.filter_eq_self.mpr
  intro a ha
  have := List.any_eq_false.mp h a ha
  simpa using this

/-- Whatever the prior contents, a non-empty save rewrites the keychain to
"everything under other accounts, then the fresh item". -/
lemma save_result_eq (hash : String → Nat) (key url : String) (st : Keychain)
    (hkey : key ≠ "") :
    (save_api_key hash key url st).2
      = st.filter (fun e => e.1 ≠ (SERVICE_NAME, create_account_name hash url))
          ++ [((SERVICE_NAME, create_account_name hash url), key)] := by
  unfold save_api_key
  rw [if_neg hkey]
  by_cases h : st.any (fun e => e.1 = (SERVICE_NAME, create_account_name hash url)) = true
  · simp only [delete_generic_password, if_pos h]
    simp only [set_generic_password, kc_any_of_filter_ne, Bool.false_eq_true, if_false]
  · rw [Bool.not_eq_true] at h
    simp only [delete_generic_password, h, Bool.false_eq_true, if_false]
    simp only [set_generic_password, h, Bool.false_eq_true, if_false]
    rw [kc_filter_ne_of_any_false _ _ h]

lemma kc_find_self_after_save (k : String × String) (v : String) (st : Keychain) :
    ((st.filter (fun e => e.1 ≠ k)) ++ [(k, v)]).find? (fun e => e.1 = k)
      = some (k, v) := by
  induction st with
  | nil =>
    simp only [List.filter_nil, List.nil_append]
    rw [List.find?_cons_of_pos _ (by simp)]
  | cons x t ih =>
    by_cases hx : x.1 = k
    · have hfc : (x :: t).filter (fun e => e.1 ≠ k) = t.filter (fun e => e.1 ≠ k) := by
        rw [List.filter_cons, if_neg (by simpa using hx)]
      rw [hfc]
      exact ih
    · have hfc : (x :: t).filter (fun e => e.1 ≠ k)
          = x :: t.filter (fun e => e.1 ≠ k) := by
        rw [List.filter_cons, if_pos (by simpa using hx)]
      rw [hfc, List.cons_append, List.find?_cons_of_neg _ (by simpa using hx)]
      exact ih

lemma kc_find_other_after_save (k p : String × String) (hne : p ≠ k) (v : String)
    (st : Keychain) :
    ((st.filter (fun e => e.1 ≠ k)) ++ [(k, v)]).find? (fun e => e.1 = p)
      = st.find? (fun e => e.1 = p) := by
  induction st with
  | nil =>
    have hk : ¬((k, v).1 = p) := fun hc => hne hc.symm
    simp only [List.filter_nil, List.nil_append]
    rw [List.find?_cons_of_neg _ (by simpa using hk)]
  | cons x t ih =>
    by_cases hx : x.1 = k
    · have hxp : ¬x.1 = p := by
        intro hc
        exact hne (by rw [← hc, hx])
      have hfc : (x :: t).filter (fun e => e.1 ≠ k) = t.filter (fun e => e.1 ≠ k) := by
        rw [List.filter_cons, if_neg (by simpa using hx)]
      rw [hfc, ih, List.find?_cons_of_neg _ (by simpa using hxp)]
    · have hfc : (x :: t).filter (fun e => e.1 ≠ k)
          = x :: t.filter (fun e => e.1 ≠ k) := by
        rw [List.filter_cons, if_pos (by simpa using hx)]
      rw [hfc, List.cons_append]
      by_cases hp : x.1 = p
      · rw [List.find?_cons_of_pos _ (by simpa using hp),
          List.find?_cons_of_pos _ (by simpa using hp)]
      · rw [List.find?_cons_of_neg _ (by simpa using hp),
          List.find?_cons_of_neg _ (by simpa using hp), ih]

/-! ## Claim theorems: keychain -/

/-- Claim C9: saving an empty credential returns an error with the
keychain untouched (the check precedes every keychain call); saving a
non-empty credential succeeds and leaves exactly one item under the URL's
account, holding the new credential — an existing item is replaced, never
duplicated. -/
theorem save_api_key_replace (hash : String → Nat) (key url : String)
    (st : Keychain) :
    (key = "" →
        save_api_key hash key url st
          = (.error "Cannot save empty API key to keychain", st))
    ∧ (key ≠ "" →
        (save_api_key hash key url st).1 = .ok ()
        ∧ ((save_api_key hash key url st).2.filter
              (fun e => e.1 = (SERVICE_NAME, create_account_name hash url)))
            = [((SERVICE_NAME, create_account_name hash url), key)]) := by
  constructor
  · intro hk
    simp [save_api_key, hk]
  · intro hk
    constructor
    · simp [save_api_key, hk]
    · rw [save_result_eq hash key url st hk, List.filter_append,
        kc_filter_ne_then_eq]
      simp

/-- Witness for C9: the empty key is rejected on a keychain holding one
item; a fresh key replaces an existing item for the same URL. -/
theorem save_api_key_replace_witness :
    save_api_key (fun _ => 0) "" "https://api.ollama.ai"
        [(("ollama-agent", "api-key-api.ollama.ai"), "old")]
      = (.error "Cannot save empty API key to keychain",
         [(("ollama-agent", "api-key-api.ollama.ai"), "old")])
    ∧ ((save_api_key (fun _ => 0) "sk-1" "https://api.ollama.ai"
          [(("ollama-agent", "api-key-api.ollama.ai"), "old")]).2.filter
          (fun e => e.1
            = (SERVICE_NAME, create_account_name (fun _ => 0) "https://api.ollama.ai")))
        = [((SERVICE_NAME, create_account_name (fun _ => 0) "https://api.ollama.ai"),
            "sk-1")] :=
  ⟨(save_api_key_replace (fun _ => 0) "" "https://api.ollama.ai"
      [(("ollama-agent", "api-key-api.ollama.ai"), "old")]).1 rfl,
   ((save_api_key_replace (fun _ => 0) "sk-1" "https://api.ollama.ai"
      [(("ollama-agent", "api-key-api.ollama.ai"), "old")]).2 (by decide)).2⟩

/-- Claim C10, counterexample to the original statement: the remote URL
`https://api.ollama.ai` is NOT one of the three probe strings, yet after
saving a credential for it the listing reports `api.ollama.ai` — the
account name normalization (scheme stripping) collides with the probe's
account. -/
theorem list_reports_normalized_collision_counterexample :
    "https://api.ollama.ai" ∉ urls_to_check
    ∧ list_saved_urls (fun _ => 0)
        (save_api_key (fun _ => 0) "sk" "https://api.ollama.ai" []).2
      = ["api.ollama.ai"] := by
  constructor <;> decide

/-- Claim C10 (amended): the listing probes only the three fixed endpoint
identifiers and returns a subset of them; a credential saved for a remote
URL whose NORMALIZED account name differs from the accounts of all three
probes is never reported by the listing — the listing over the saved-into
keychain equals the listing over the prior keychain — even though get and
delete for that URL succeed after the save. -/
theorem list_saved_urls_probes_fixed_set (hash : String → Nat) (st : Keychain)
    (key url : String) (hkey : key ≠ "")
    (hacct : ∀ u ∈ urls_to_check,
        create_account_name hash url ≠ create_account_name hash u) :
    (∀ u ∈ list_saved_urls hash st, u ∈ urls_to_check)
    ∧ list_saved_urls hash (save_api_key hash key url st).2
        = list_saved_urls hash st
    ∧ get_api_key hash url (save_api_key hash key url st).2 = .ok key
    ∧ (delete_api_key hash url (save_api_key hash key url st).2).isOk = true := by
  refine ⟨fun u hu => List.mem_of_mem_filter hu, ?_, ?_, ?_⟩
  · unfold list_saved_urls
    apply List.filter_congr
    intro u hu
    have hne : (SERVICE_NAME, create_account_name hash u)
        ≠ (SERVICE_NAME, create_account_name hash url) := by
      intro hc
      exact hacct u hu (congrArg Prod.snd hc).symm
    rw [save_result_eq hash key url st hkey]
    unfold get_generic_password
    rw [kc_find_other_after_save _ _ hne]
  · unfold get_api_key get_generic_password
    rw [save_result_eq hash key url st hkey, kc_find_self_after_save]
  · unfold delete_api_key delete_generic_password
    rw [save_result_eq hash key url st hkey]
    have hany : ((st.filter
          (fun e => e.1 ≠ (SERVICE_NAME, create_account_name hash url)))
        ++ [((SERVICE_NAME, create_account_name hash url), key)]).any
        (fun e => e.1 = (SERVICE_NAME, create_account_name hash url)) = true := by
      rw [List.any_append]
      simp
    rw [if_pos hany]
    rfl

/-- Witness for C10's amended theorem: a credential saved for
`https://example.org` (account `api-key-example.org`) is invisible to the
listing probing the three fixed identifiers. -/
theorem list_saved_urls_probes_fixed_set_witness :
    list_saved_urls (fun _ => 0)
        (save_api_key (fun _ => 0) "sk" "https://example.org" []).2
      = list_saved_urls (fun _ => 0) []
    ∧ get_api_key (fun _ => 0) "https://example.org"
        (save_api_key (fun _ => 0) "sk" "https://example.org" []).2 = .ok "sk" :=
  ⟨(list_saved_urls_probes_fixed_set (fun _ => 0) [] "sk" "https://example.org"
      (by decide) (by decide)).2.1,
   (list_saved_urls_probes_fixed_set (fun _ => 0) [] "sk" "https://example.org"
      (by decide) (by decide)).2.2.1⟩

end OllamaAgent
